import Mathlib

/-!
Verification development for the light-my-request OpenTelemetry
instrumentation (`lib/instrumentation.js`).

The JavaScript source is shallowly embedded here:
* JS strings are `List Char` (`JsStr`); JS string truthiness (empty string
  is falsy) is made explicit via `truthyS`.
* The span handle is observed through an ordered event trace (`Ev`):
  `startSpan`, `setAttribute`, `setStatus`, `recordException`, `endSpan`,
  diagnostic logging, and the invocation of the caller's callback.
* The semantic-convention attribute-key constants are imported by the
  source from a collaborator package; they are modelled as the opaque
  enumeration `AttrKey` (distinct constants).
* Hooks (`requestHook` / `responseHook`) are user-supplied synchronous
  functions; the source only observes whether they throw (their call is
  wrapped in try/catch whose handler logs), so they are modelled as
  functions into `HookOutcome`.
* The delegate (the original `inject`) is an external collaborator; its
  observable interactions with this code are: invoking the wrapped
  callback with an `(error, response)` pair, or returning a thenable that
  settles (fulfilled / rejected), or returning a non-thenable value.
  These are the inputs `wrappedCallbackEvents` / `DelegateResult` below.
* Trace-context plumbing (`propagation.extract`, `context.with`,
  `trace.setSpan`) is delegated to the OpenTelemetry API collaborator and
  is not observed by any property below, so it is not given events.
-/

/-- JS strings, embedded as lists of characters. -/
abbrev JsStr := List Char

/-- JS truthiness of a possibly-absent string: `undefined`/`null` and the
empty string are falsy. -/
def truthyS : Option JsStr → Bool
  | none => false
  | some s => !s.isEmpty

/-- Embedding of JS `a || b` for possibly-absent strings. -/
def jsOrS (a b : Option JsStr) : Option JsStr :=
  if truthyS a then a else b

/-- Embedding of JS `a || d` where `d` is a (truthy) string default. -/
def jsOrSD (a : Option JsStr) (d : JsStr) : JsStr :=
  if truthyS a then a.getD [] else d

/-- Embedding of JS `x || d` for numbers: `undefined` and `0` are falsy. -/
def jsOrNat (x : Option Nat) (d : Nat) : Nat :=
  match x with
  | none => d
  | some n => if n = 0 then d else n

/-- Embedding of JS `String.prototype.split` with a one-character
separator: `"a::1".split(':')` is `["a", "", "1"]`. -/
def splitList (sep : Char) : List Char → List (List Char)
  | [] => [[]]
  | c :: cs =>
    if c == sep then
      [] :: splitList sep cs
    else
      match splitList sep cs with
      | [] => [[c]]
      | h :: t => (c :: h) :: t

/-- Embedding of JS array destructuring `const [a, b] = arr`: the first
element (JS `split` always returns at least one) and the optional second
element (`undefined` when missing). -/
def first2 : List (List Char) → List Char × Option (List Char)
  | [] => ([], none)
  | [a] => (a, none)
  | a :: b :: _ => (a, some b)

/-- The leading decimal-digit run of a string as a number, `none` when the
string has no leading digit (JS `NaN`). -/
def digitsVal (l : List Char) : Option Nat :=
  let ds := l.takeWhile (fun c => c.isDigit)
  if ds.isEmpty then none
  else some (ds.foldl (fun a c => a * 10 + (c.toNat - 48)) 0)

/-- Embedding of JS `parseInt(s, 10)`: skip leading (ASCII) whitespace,
optional sign, then the leading digit run; `none` models `NaN`. -/
def parseInt10 (s : JsStr) : Option Int :=
  let t := s.dropWhile (fun c => c == ' ' || c == '\t' || c == '\n' || c == '\r')
  match t with
  | '-' :: rest => (digitsVal rest).map (fun n => -(n : Int))
  | '+' :: rest => (digitsVal rest).map (fun n => (n : Int))
  | _ => (digitsVal t).map (fun n => (n : Int))

/-- Embedding of JS `String(n)` for a natural number: its decimal digits. -/
def natToJsStr (n : Nat) : JsStr := (Nat.repr n).toList

/-- The attribute-key constants imported from
`@opentelemetry/semantic-conventions`, modelled as distinct opaque
symbols (their concrete string values live in the collaborator package,
not in this repository). -/
inductive AttrKey where
  | httpRequestMethod
  | httpResponseStatusCode
  | urlFull
  | urlPath
  | urlQuery
  | urlScheme
  | serverAddress
  | serverPort
  | clientAddress
  | userAgentOriginal
  | networkProtocolVersion
  | errorType
  deriving DecidableEq

/-- Span attribute values: strings, numbers, and JS `NaN` (which
`parseInt` can produce for a non-numeric port). -/
inductive AttrVal where
  | str (s : JsStr)
  | num (n : Int)
  | nan
  deriving DecidableEq

/-- The options object of a call, after normalization: the fields the
source reads (`url`, `method`, `headers`, `remoteAddress`). `none` models
an absent field. Headers are a key-value object. -/
structure Opts where
  url : Option JsStr
  method : Option JsStr
  headers : Option (List (JsStr × JsStr))
  remoteAddress : Option JsStr
  deriving DecidableEq

/-- JS property lookup on a header object (keys are case-sensitive). -/
def lookupHeader : List (JsStr × JsStr) → JsStr → Option JsStr
  | [], _ => none
  | (k', v) :: rest, k => if k' = k then some v else lookupHeader rest k

/-- JS property lookup on the attributes object. -/
def attrLookup : List (AttrKey × AttrVal) → AttrKey → Option AttrVal
  | [], _ => none
  | (k', v) :: rest, k => if k' = k then some v else attrLookup rest k

/-- Embedding of `if (cond) { attributes[k] = v }`: the attribute entry is
appended only when the condition is truthy. -/
def condAttr (cond : Bool) (k : AttrKey) (v : AttrVal) : List (AttrKey × AttrVal) :=
  if cond then [(k, v)] else []

/-- `const method = (opts.method || 'GET').toUpperCase()`. -/
def methodOf (opts : Opts) : JsStr :=
  (jsOrSD opts.method ("GET".toList)).map Char.toUpper

/-- `const url = opts.url || '/'`. -/
def urlOf (opts : Opts) : JsStr :=
  jsOrSD opts.url ("/".toList)

/-- `opts.headers?.['user-agent'] || opts.headers?.['User-Agent']`. -/
def userAgentOf (opts : Opts) : Option JsStr :=
  match opts.headers with
  | none => none
  | some hs => jsOrS (lookupHeader hs ("user-agent".toList)) (lookupHeader hs ("User-Agent".toList))

/-- `opts.headers?.['http-version'] || opts.headers?.httpVersion`. -/
def httpVersionOf (opts : Opts) : Option JsStr :=
  match opts.headers with
  | none => none
  | some hs => jsOrS (lookupHeader hs ("http-version".toList)) (lookupHeader hs ("httpVersion".toList))

/-- The host header as used by the source: the guard
`if (opts.headers?.host || opts.headers?.Host)` and the body read
`opts.headers.host || opts.headers.Host` are the same expression, so the
block runs exactly when that value is truthy. -/
def hostHeaderOf (opts : Opts) : Option JsStr :=
  match opts.headers with
  | none => none
  | some hs =>
    let v := jsOrS (lookupHeader hs ("host".toList)) (lookupHeader hs ("Host".toList))
    if truthyS v then v else none

/-- `parseInt(port, 10)` as an attribute value (`NaN` when unparseable). -/
def parseIntAttr (s : JsStr) : AttrVal :=
  match parseInt10 s with
  | some k => .num k
  | none => .nan

/-- The attribute entries added by the host-header block of
`patchedInject` (`server.address` always, `server.port` when the second
`split(':')` element is truthy). -/
def hostAttrs (opts : Opts) : List (AttrKey × AttrVal) :=
  match hostHeaderOf opts with
  | none => []
  | some host =>
    let hp := first2 (splitList ':' host)
    (AttrKey.serverAddress, AttrVal.str hp.1)
      :: condAttr (truthyS hp.2) .serverPort (parseIntAttr (hp.2.getD []))

/-- The attribute entries built by `patchedInject` before the host-header
block, in source order: the four unconditional entries, then the
conditional query / client-address / user-agent / protocol-version
entries. -/
def baseAttrs (opts : Opts) : List (AttrKey × AttrVal) :=
  let url := urlOf opts
  let parts := first2 (splitList '?' url)
  [(AttrKey.httpRequestMethod, AttrVal.str (methodOf opts)),
   (AttrKey.urlFull, AttrVal.str url),
   (AttrKey.urlPath, AttrVal.str parts.1),
   (AttrKey.urlScheme, AttrVal.str ("http".toList))]
  ++ condAttr (truthyS parts.2) .urlQuery (.str (parts.2.getD []))
  ++ condAttr (truthyS opts.remoteAddress) .clientAddress (.str (opts.remoteAddress.getD []))
  ++ condAttr (truthyS (userAgentOf opts)) .userAgentOriginal (.str ((userAgentOf opts).getD []))
  ++ condAttr (truthyS (httpVersionOf opts)) .networkProtocolVersion (.str ((httpVersionOf opts).getD []))

/-- The full attribute object passed to `startSpan`. -/
def buildAttributes (opts : Opts) : List (AttrKey × AttrVal) :=
  baseAttrs opts ++ hostAttrs opts

/-- The span name template `` `${method} ${url}` ``. -/
def spanNameOf (opts : Opts) : JsStr :=
  methodOf opts ++ ' ' :: urlOf opts

/-- The OpenTelemetry span status codes used by the source. -/
inductive SpanStatusCode where
  | UNSET
  | OK
  | ERROR
  deriving DecidableEq

/-- A JS error object as the source reads it: `error.name`,
`error.constructor?.name` (either may be absent) and `error.message`. -/
structure JsError where
  name : Option JsStr
  ctorName : Option JsStr
  message : JsStr
  deriving DecidableEq

/-- A light-my-request response as the source reads it: its
`statusCode` (absent on a malformed response) plus opaque payload. -/
structure JsResponse where
  statusCode : Option Nat
  body : JsStr
  deriving DecidableEq

/-- Which hook a logged diagnostic came from. -/
inductive DiagKind where
  | requestHookThrew
  | responseHookThrew
  deriving DecidableEq

/-- Observable events of one call, in order: operations on the span,
diagnostic logging of a caught hook exception, and the invocation of the
caller's original callback with its `(error, response)` pair. -/
inductive Ev where
  | startSpan (name : JsStr) (attrs : List (AttrKey × AttrVal))
  | setAttribute (k : AttrKey) (v : AttrVal)
  | setStatus (code : SpanStatusCode) (message : Option JsStr)
  | recordException (e : JsError)
  | endSpan
  | diagErr (k : DiagKind)
  | callbackCall (error : Option JsError) (response : Option JsResponse)
  deriving DecidableEq

/-- Outcome of a user-supplied hook call: it returns normally or throws.
A hook receives the span handle for enrichment; those legitimate effects
are outside the claims and are abstracted away, only the throw/no-throw
behaviour (which the source's try/catch observes) is modelled. -/
inductive HookOutcome where
  | ok
  | threw
  deriving DecidableEq

/-- The instrumentation configuration read by `patchedInject`:
the two optional user hooks. -/
structure InjectConfig where
  requestHook : Option (Opts → HookOutcome)
  responseHook : Option (JsResponse → HookOutcome)

/-- Configuration with no hooks installed. -/
def noHooks : InjectConfig := ⟨none, none⟩

/-- Events of `try { requestHook(span, opts) } catch (err) { diag.error }`:
nothing when no hook is configured or the hook returns, one diagnostic
log when it throws. -/
def requestHookEvents (cfg : InjectConfig) (opts : Opts) : List Ev :=
  match cfg.requestHook with
  | none => []
  | some h =>
    match h opts with
    | .ok => []
    | .threw => [Ev.diagErr .requestHookThrew]

/-- Events of the `responseHook` try/catch inside `onResponse`. -/
def responseHookEvents (cfg : InjectConfig) (r : JsResponse) : List Ev :=
  match cfg.responseHook with
  | none => []
  | some h =>
    match h r with
    | .ok => []
    | .threw => [Ev.diagErr .responseHookThrew]

/-- Events emitted by `patchedInject` before delegation: `startSpan` with
the derived name and attributes, then the isolated `requestHook` call. -/
def startEvents (cfg : InjectConfig) (opts : Opts) : List Ev :=
  Ev.startSpan (spanNameOf opts) (buildAttributes opts) :: requestHookEvents cfg opts

/-- Embedding of `onResponse(span, response, instrumentation)`:
status-code attribute (`response.statusCode || 200`), the `error.type`
attribute for `>= 400`, span status, the isolated `responseHook` call,
and `span.end()` last. -/
def onResponseEvents (cfg : InjectConfig) (r : JsResponse) : List Ev :=
  let statusCode := jsOrNat r.statusCode 200
  [Ev.setAttribute .httpResponseStatusCode (.num statusCode)]
  ++ (if 400 ≤ statusCode then [Ev.setAttribute .errorType (.str (natToJsStr statusCode))] else [])
  ++ [Ev.setStatus (if 400 ≤ statusCode then .ERROR else .OK) none]
  ++ responseHookEvents cfg r
  ++ [Ev.endSpan]

/-- `const errorType = error.name || error.constructor?.name || 'Error'`. -/
def errorTypeOf (e : JsError) : JsStr :=
  jsOrSD e.name (jsOrSD e.ctorName ("Error".toList))

/-- Embedding of `onError(span, error)`: record the exception, set the
`error.type` attribute, set error status carrying the error's message,
and `span.end()` last. -/
def onErrorEvents (e : JsError) : List Ev :=
  [Ev.recordException e,
   Ev.setAttribute .errorType (.str (errorTypeOf e)),
   Ev.setStatus .ERROR (some e.message),
   Ev.endSpan]

/-- Embedding of `wrappedCallback(error, response)`: finalize through the
error path when `error` is truthy, else through the response path when
`response` is truthy, then always invoke the caller's callback with the
same pair. -/
def wrappedCallbackEvents (cfg : InjectConfig) (error : Option JsError)
    (response : Option JsResponse) : List Ev :=
  (match error, response with
   | some e, _ => onErrorEvents e
   | none, some r => onResponseEvents cfg r
   | none, none => [])
  ++ [Ev.callbackCall error response]

/-- The second (options) argument of `inject`: a bare string, a `URL`
instance (observed through its serialization), or an options object. -/
inductive OptionsArg where
  | strArg (s : JsStr)
  | urlArg (s : JsStr)
  | objArg (o : Opts)
  deriving DecidableEq

/-- Embedding of the normalization
`typeof options === 'string' || options instanceof URL
  ? { url: options.toString() } : { ...options }`:
a fresh object holding only `url`, or a shallow copy of the object
(field-for-field equal to it). -/
def normalizeOptions : OptionsArg → Opts
  | .strArg s => ⟨some s, none, none, none⟩
  | .urlArg s => ⟨some s, none, none, none⟩
  | .objArg o => o

/-- How a settled delegate promise settled. -/
inductive Settlement where
  | fulfilled (r : JsResponse)
  | rejected (e : JsError)
  deriving DecidableEq

/-- The delegate's return value in the promise branch: a thenable with
its eventual settlement, or (contract violation) a non-thenable opaque
value. -/
inductive DelegateResult where
  | thenable (s : Settlement)
  | nonThenable (v : Int)
  deriving DecidableEq

/-- The caller-visible completion of one patched call. -/
inductive CallOutcome where
  | resolved (r : JsResponse)
  | rejected (e : JsError)
  | raw (v : Int)
  | delegateReturn
  deriving DecidableEq

/-- Result of one patched call: its event trace, its caller-visible
outcome, and the caller's options argument after the call (the source
only ever reads `options` — normalization spreads it into a fresh
object — so the embedding threads it through unchanged). -/
structure CallResult where
  trace : List Ev
  outcome : CallOutcome
  callerOptions : OptionsArg
  deriving DecidableEq

/-- Embedding of a `patchedInject` call in the callback branch: the
delegate later invokes the wrapped callback with `(error, response)`.
The call returns the delegate's own return value (opaque). -/
def runInjectCallback (cfg : InjectConfig) (options : OptionsArg)
    (error : Option JsError) (response : Option JsResponse) : CallResult :=
  let opts := normalizeOptions options
  { trace := startEvents cfg opts ++ wrappedCallbackEvents cfg error response
    outcome := .delegateReturn
    callerOptions := options }

/-- Embedding of a `patchedInject` call in the promise branch
(`wrapPromise`): on fulfillment finalize via `onResponse` and re-resolve
with the same response; on rejection finalize via `onError` and re-reject
with the same error; a non-thenable result is returned unchanged with no
finalization. -/
def runInjectPromise (cfg : InjectConfig) (options : OptionsArg)
    (dres : DelegateResult) : CallResult :=
  let opts := normalizeOptions options
  match dres with
  | .thenable (.fulfilled r) =>
    { trace := startEvents cfg opts ++ onResponseEvents cfg r
      outcome := .resolved r
      callerOptions := options }
  | .thenable (.rejected e) =>
    { trace := startEvents cfg opts ++ onErrorEvents e
      outcome := .rejected e
      callerOptions := options }
  | .nonThenable v =>
    { trace := startEvents cfg opts
      outcome := .raw v
      callerOptions := options }

/-- The shape of a module-exports value as `_patch` inspects it: a
function value (with its enumerable property names and its hidden
`kOriginal` slot, unset unless this installer set it), an ESM namespace
wrapping a default export, or any other non-function value. The wrapped
function's behaviour is the interceptor modelled above; here only the
module shape handled by the installer is modelled. -/
inductive ModuleVal where
  | fn (keys : List JsStr) (orig : Option ModuleVal)
  | esm (dflt : ModuleVal)
  | other

/-- Property keys of the patched function in the CommonJS branch: the
original's enumerable keys are copied in order, then `default` and
`inject` are published (an already-copied name keeps its position). -/
def addAliasKeys (ks : List JsStr) : List JsStr :=
  ks ++ (["default".toList, "inject".toList].filter (fun a => !(ks.contains a)))

/-- Embedding of `_patch`: the ESM branch patches a function default
export (and returns it), the CommonJS branch wraps a function export and
republishes aliases; in both branches the original is stowed under the
private `kOriginal` marker. Any other shape is returned unchanged with a
diagnostic warning. -/
def _patch : ModuleVal → ModuleVal
  | .esm d =>
    match d with
    | .fn ks o => .fn ks (some (.fn ks o))
    | _ => .esm d
  | .fn ks o => .fn (addAliasKeys ks) (some (.fn ks o))
  | .other => .other

/-- The hidden original stowed under the private `kOriginal` marker
(`undefined` for values this installer never wrapped). -/
def hiddenOriginal : ModuleVal → Option ModuleVal
  | .fn _ o => o
  | _ => none

/-- Embedding of `_unpatch`: return the stowed original when the private
marker is set, otherwise return the input unchanged. -/
def _unpatch (m : ModuleVal) : ModuleVal :=
  match hiddenOriginal m with
  | some o => o
  | none => m

/-- The segment of `l` strictly between the first and the second
occurrence of `sep` (all of `l` after the first occurrence when there is
no second; empty when `sep` does not occur). -/
def secondSeg (sep : Char) (l : List Char) : List Char :=
  ((l.dropWhile (fun c => !(c == sep))).drop 1).takeWhile (fun c => !(c == sep))

/-- Concrete options used to instantiate theorems: the spec's running
example `{ url: '/test?foo=bar' }`. -/
def optsTest : Opts := ⟨some ("/test?foo=bar".toList), none, none, none⟩

/-- Concrete options with no fields set. -/
def optsEmpty : Opts := ⟨none, none, none, none⟩

/-- Concrete error `new Error('boom')` as the source reads it. -/
def err0 : JsError := ⟨some ("Error".toList), some ("Error".toList), "boom".toList⟩

/-- Concrete well-formed 200 response. -/
def resp200 : JsResponse := ⟨some 200, "OK".toList⟩

/-- Concrete 404 response. -/
def resp404 : JsResponse := ⟨some 404, [] ⟩

/-- Recognizer for `startSpan` events. -/
def isStartEv : Ev → Bool
  | .startSpan _ _ => true
  | _ => false

/-- Recognizer for `span.end()` events. -/
def isEndEv : Ev → Bool
  | .endSpan => true
  | _ => false

/-- Recognizer for `span.setStatus` events. -/
def isSetStatusEv : Ev → Bool
  | .setStatus _ _ => true
  | _ => false

/-- Recognizer for `span.recordException` events. -/
def isRecordExcEv : Ev → Bool
  | .recordException _ => true
  | _ => false

/-- Recognizer for diagnostic-log events. -/
def isDiagEv : Ev → Bool
  | .diagErr _ => true
  | _ => false

/-- Recognizer for invocations of the caller's callback. -/
def isCallbackEv : Ev → Bool
  | .callbackCall _ _ => true
  | _ => false

/-- Number of events satisfying `p` in a trace. -/
def countEv (p : Ev → Bool) (t : List Ev) : Nat := (t.filter p).length

/-- The sub-trace of span operations and caller-visible events, with
diagnostic logging filtered out. -/
def spanEvents (t : List Ev) : List Ev := t.filter (fun ev => !(isDiagEv ev))

/-- Recognizer for `error.type` attribute events. -/
def isErrorTypeEv : Ev → Bool
  | .setAttribute .errorType _ => true
  | _ => false

/-- Concrete error with no `name` but a constructor name. -/
def errNoName : JsError := ⟨none, some ("TypeError".toList), "bad".toList⟩

/-- Concrete error with neither a `name` nor a constructor name. -/
def errBare : JsError := ⟨none, none, "bad".toList⟩

/-- Options whose headers carry a host key with an empty value. -/
def c6OptsA : Opts := ⟨none, none, some [("host".toList, [])], none⟩

/-- Options whose headers carry host `a::1`. -/
def c6OptsB : Opts := ⟨none, none, some [("host".toList, "a::1".toList)], none⟩

/-- Options whose headers carry host `example.com:8080`. -/
def optsHost : Opts := ⟨none, none, some [("host".toList, "example.com:8080".toList)], none⟩

/-- Options whose headers carry host `example.com` (no colon). -/
def optsHostNoPort : Opts := ⟨none, none, some [("host".toList, "example.com".toList)], none⟩

theorem splitList_ne_nil (sep : Char) (l : List Char) : splitList sep l ≠ [] := by
  cases l with
  | nil => simp [splitList]
  | cons c cs =>
    simp only [splitList]
    by_cases h : (c == sep) = true
    · simp [h]
    · simp only [h]
      cases hs : splitList sep cs with
      | nil => simp
      | cons a t => simp

theorem first2_fst_cons (a : List Char) (t : List (List Char)) :
    (first2 (a :: t)).1 = a := by
  cases t <;> rfl

theorem first2_snd_cons (a : List Char) (t : List (List Char)) :
    (first2 (a :: t)).2 = t.head? := by
  cases t <;> rfl

theorem first2_splitList_fst (sep : Char) (l : List Char) :
    (first2 (splitList sep l)).1 = l.takeWhile (fun c => !(c == sep)) := by
  induction l with
  | nil => rfl
  | cons c cs ih =>
    by_cases h : (c == sep) = true
    · cases hs : splitList sep cs with
      | nil => exact absurd hs (splitList_ne_nil sep cs)
      | cons a t =>
        simp [splitList, h, hs, List.takeWhile_cons, first2_fst_cons]
    · cases hs : splitList sep cs with
      | nil => exact absurd hs (splitList_ne_nil sep cs)
      | cons a t =>
        rw [hs, first2_fst_cons] at ih
        simp [splitList, h, hs, List.takeWhile_cons, first2_fst_cons, ih]

theorem first2_splitList_snd (sep : Char) (l : List Char) :
    (first2 (splitList sep l)).2 =
      if l.any (fun x => x == sep) then some (secondSeg sep l) else none := by
  induction l with
  | nil => rfl
  | cons c cs ih =>
    by_cases h : (c == sep) = true
    · cases hs : splitList sep cs with
      | nil => exact absurd hs (splitList_ne_nil sep cs)
      | cons a t =>
        have ha : a = cs.takeWhile (fun x => !(x == sep)) := by
          have := first2_splitList_fst sep cs
          rw [hs, first2_fst_cons] at this
          exact this
        simp [splitList, h, hs, first2_snd_cons, secondSeg, List.dropWhile_cons, ha]
    · cases hs : splitList sep cs with
      | nil => exact absurd hs (splitList_ne_nil sep cs)
      | cons a t =>
        rw [hs] at ih
        simp [splitList, h, hs, first2_snd_cons, secondSeg, List.dropWhile_cons] at ih ⊢
        simpa [first2_snd_cons, secondSeg] using ih

theorem dropWhile_ne_nil_of_not_any (sep : Char) (l : List Char)
    (h : l.any (fun x => x == sep) = false) :
    l.dropWhile (fun c => !(c == sep)) = [] := by
  induction l with
  | nil => rfl
  | cons c cs ih =>
    simp only [List.any_cons, Bool.or_eq_false_iff] at h
    simp [List.dropWhile_cons, h.1, ih h.2]

theorem secondSeg_of_not_any (sep : Char) (l : List Char)
    (h : l.any (fun x => x == sep) = false) : secondSeg sep l = [] := by
  simp [secondSeg, dropWhile_ne_nil_of_not_any sep l h]

theorem attrLookup_cons_ne (k' k : AttrKey) (v : AttrVal)
    (rest : List (AttrKey × AttrVal)) (h : k' ≠ k) :
    attrLookup ((k', v) :: rest) k = attrLookup rest k := by
  simp [attrLookup, h]

theorem attrLookup_cons_self (k : AttrKey) (v : AttrVal)
    (rest : List (AttrKey × AttrVal)) :
    attrLookup ((k, v) :: rest) k = some v := by
  simp [attrLookup]

theorem attrLookup_append (a b : List (AttrKey × AttrVal)) (k : AttrKey) :
    attrLookup (a ++ b) k =
      match attrLookup a k with
      | some v => some v
      | none => attrLookup b k := by
  induction a with
  | nil => simp [attrLookup]
  | cons p t ih =>
    cases p with
    | mk k' v =>
      by_cases h : k' = k
      · subst h; simp [attrLookup]
      · simp [attrLookup, h, ih]

theorem attrLookup_condAttr_ne (c : Bool) (k' k : AttrKey) (v : AttrVal)
    (h : k' ≠ k) : attrLookup (condAttr c k' v) k = none := by
  cases c <;> simp [condAttr, attrLookup, h]

theorem attrLookup_condAttr_self (c : Bool) (k : AttrKey) (v : AttrVal) :
    attrLookup (condAttr c k v) k = if c then some v else none := by
  cases c <;> simp [condAttr, attrLookup]

theorem attrLookup_baseAttrs_serverAddress (opts : Opts) :
    attrLookup (baseAttrs opts) .serverAddress = none := by
  simp [baseAttrs, attrLookup_append, attrLookup_condAttr_ne, attrLookup_cons_ne, attrLookup]

theorem attrLookup_baseAttrs_serverPort (opts : Opts) :
    attrLookup (baseAttrs opts) .serverPort = none := by
  simp [baseAttrs, attrLookup_append, attrLookup_condAttr_ne, attrLookup_cons_ne, attrLookup]

theorem countEv_append (p : Ev → Bool) (a b : List Ev) :
    countEv p (a ++ b) = countEv p a + countEv p b := by
  simp [countEv, List.filter_append]

theorem requestHookEvents_cases (cfg : InjectConfig) (opts : Opts) :
    requestHookEvents cfg opts = []
      ∨ requestHookEvents cfg opts = [Ev.diagErr .requestHookThrew] := by
  unfold requestHookEvents
  cases cfg.requestHook with
  | none => exact Or.inl rfl
  | some h =>
    cases hh : h opts with
    | ok => exact Or.inl (by simp [hh])
    | threw => exact Or.inr (by simp [hh])

theorem responseHookEvents_cases (cfg : InjectConfig) (r : JsResponse) :
    responseHookEvents cfg r = []
      ∨ responseHookEvents cfg r = [Ev.diagErr .responseHookThrew] := by
  unfold responseHookEvents
  cases cfg.responseHook with
  | none => exact Or.inl rfl
  | some h =>
    cases hh : h r with
    | ok => exact Or.inl (by simp [hh])
    | threw => exact Or.inr (by simp [hh])

theorem countEv_requestHookEvents (p : Ev → Bool)
    (hp : ∀ k, p (Ev.diagErr k) = false) (cfg : InjectConfig) (opts : Opts) :
    countEv p (requestHookEvents cfg opts) = 0 := by
  rcases requestHookEvents_cases cfg opts with h | h <;>
    simp [h, countEv, List.filter, hp]

theorem countEv_responseHookEvents (p : Ev → Bool)
    (hp : ∀ k, p (Ev.diagErr k) = false) (cfg : InjectConfig) (r : JsResponse) :
    countEv p (responseHookEvents cfg r) = 0 := by
  rcases responseHookEvents_cases cfg r with h | h <;>
    simp [h, countEv, List.filter, hp]

theorem countEv_startEvents (p : Ev → Bool)
    (hp : ∀ k, p (Ev.diagErr k) = false) (cfg : InjectConfig) (opts : Opts) :
    countEv p (startEvents cfg opts) =
      if p (Ev.startSpan (spanNameOf opts) (buildAttributes opts)) then 1 else 0 := by
  rcases requestHookEvents_cases cfg opts with h | h <;>
    by_cases hps : p (Ev.startSpan (spanNameOf opts) (buildAttributes opts)) <;>
      simp [startEvents, h, countEv, List.filter, hp, hps]

theorem countEv_isEndEv_onResponseEvents (cfg : InjectConfig) (r : JsResponse) :
    countEv isEndEv (onResponseEvents cfg r) = 1 := by
  unfold onResponseEvents
  rcases responseHookEvents_cases cfg r with h | h <;>
    by_cases h4 : 400 ≤ jsOrNat r.statusCode 200 <;>
      simp [h, h4, countEv, List.filter_append, List.filter, isEndEv]

theorem countEv_isStartEv_onResponseEvents (cfg : InjectConfig) (r : JsResponse) :
    countEv isStartEv (onResponseEvents cfg r) = 0 := by
  unfold onResponseEvents
  rcases responseHookEvents_cases cfg r with h | h <;>
    by_cases h4 : 400 ≤ jsOrNat r.statusCode 200 <;>
      simp [h, h4, countEv, List.filter_append, List.filter, isStartEv]

theorem countEv_isSetStatusEv_onResponseEvents (cfg : InjectConfig) (r : JsResponse) :
    countEv isSetStatusEv (onResponseEvents cfg r) = 1 := by
  unfold onResponseEvents
  rcases responseHookEvents_cases cfg r with h | h <;>
    by_cases h4 : 400 ≤ jsOrNat r.statusCode 200 <;>
      simp [h, h4, countEv, List.filter_append, List.filter, isSetStatusEv]

theorem countEv_isRecordExcEv_onResponseEvents (cfg : InjectConfig) (r : JsResponse) :
    countEv isRecordExcEv (onResponseEvents cfg r) = 0 := by
  unfold onResponseEvents
  rcases responseHookEvents_cases cfg r with h | h <;>
    by_cases h4 : 400 ≤ jsOrNat r.statusCode 200 <;>
      simp [h, h4, countEv, List.filter_append, List.filter, isRecordExcEv]

theorem countEv_isEndEv_onErrorEvents (e : JsError) :
    countEv isEndEv (onErrorEvents e) = 1 := rfl

theorem countEv_isStartEv_onErrorEvents (e : JsError) :
    countEv isStartEv (onErrorEvents e) = 0 := rfl

theorem countEv_isSetStatusEv_onErrorEvents (e : JsError) :
    countEv isSetStatusEv (onErrorEvents e) = 1 := rfl

theorem countEv_isRecordExcEv_onErrorEvents (e : JsError) :
    countEv isRecordExcEv (onErrorEvents e) = 1 := rfl

theorem spanEvents_append (a b : List Ev) :
    spanEvents (a ++ b) = spanEvents a ++ spanEvents b := by
  simp [spanEvents, List.filter_append]

theorem spanEvents_requestHookEvents (cfg : InjectConfig) (opts : Opts) :
    spanEvents (requestHookEvents cfg opts) = [] := by
  rcases requestHookEvents_cases cfg opts with h | h <;>
    simp [h, spanEvents, List.filter, isDiagEv]

theorem spanEvents_responseHookEvents (cfg : InjectConfig) (r : JsResponse) :
    spanEvents (responseHookEvents cfg r) = [] := by
  rcases responseHookEvents_cases cfg r with h | h <;>
    simp [h, spanEvents, List.filter, isDiagEv]

theorem spanEvents_startEvents (cfg : InjectConfig) (opts : Opts) :
    spanEvents (startEvents cfg opts) =
      [Ev.startSpan (spanNameOf opts) (buildAttributes opts)] := by
  rcases requestHookEvents_cases cfg opts with h | h <;>
    simp [startEvents, h, spanEvents, List.filter, isDiagEv]

theorem spanEvents_onResponseEvents (cfg : InjectConfig) (r : JsResponse) :
    spanEvents (onResponseEvents cfg r) = spanEvents (onResponseEvents noHooks r) := by
  unfold onResponseEvents
  simp only [spanEvents_append, spanEvents_responseHookEvents]

theorem countEv_isStartEv_startEvents (cfg : InjectConfig) (opts : Opts) :
    countEv isStartEv (startEvents cfg opts) = 1 := by
  rw [countEv_startEvents isStartEv (fun k => rfl)]; rfl

theorem countEv_isEndEv_startEvents (cfg : InjectConfig) (opts : Opts) :
    countEv isEndEv (startEvents cfg opts) = 0 := by
  rw [countEv_startEvents isEndEv (fun k => rfl)]; rfl

theorem countEv_isSetStatusEv_startEvents (cfg : InjectConfig) (opts : Opts) :
    countEv isSetStatusEv (startEvents cfg opts) = 0 := by
  rw [countEv_startEvents isSetStatusEv (fun k => rfl)]; rfl

theorem countEv_isRecordExcEv_startEvents (cfg : InjectConfig) (opts : Opts) :
    countEv isRecordExcEv (startEvents cfg opts) = 0 := by
  rw [countEv_startEvents isRecordExcEv (fun k => rfl)]; rfl

/-- C1 counterexample: the claim as stated quantifies over every call
whose delegate completes, defining completion as "the supplied callback
is invoked". When the delegate invokes the callback with a falsy error
AND a falsy response, `wrappedCallback` takes neither finalization
branch: the span is created (and the caller's callback is invoked), but
the span is never ended — not "ended exactly once". -/
theorem callback_both_falsy_span_not_ended :
    countEv isStartEv (runInjectCallback noHooks (OptionsArg.objArg optsEmpty) none none).trace = 1
    ∧ countEv isCallbackEv (runInjectCallback noHooks (OptionsArg.objArg optsEmpty) none none).trace = 1
    ∧ countEv isEndEv (runInjectCallback noHooks (OptionsArg.objArg optsEmpty) none none).trace = 0 := by
  decide

/-- C1 (amended): for every invocation of the patched inject whose
delegate completes with a truthy error or a truthy response through the
callback, or whose returned promise settles, exactly one span is created
(`startSpan`) and that span is ended (`span.end()`) exactly once,
regardless of which completion branch fires. -/
theorem span_finalized_exactly_once :
    ∀ (cfg : InjectConfig) (options : OptionsArg) (error : Option JsError)
      (response : Option JsResponse) (s : Settlement),
      ((error.isSome = true ∨ response.isSome = true) →
        countEv isStartEv (runInjectCallback cfg options error response).trace = 1
        ∧ countEv isEndEv (runInjectCallback cfg options error response).trace = 1)
      ∧ (countEv isStartEv (runInjectPromise cfg options (.thenable s)).trace = 1
        ∧ countEv isEndEv (runInjectPromise cfg options (.thenable s)).trace = 1) := by
  intro cfg options error response s
  constructor
  · intro htr
    rcases error with _ | e
    · rcases response with _ | r
      · simp at htr
      · constructor
        · simp only [runInjectCallback, wrappedCallbackEvents, countEv_append,
            countEv_isStartEv_startEvents, countEv_isStartEv_onResponseEvents]
          simp [countEv, List.filter, isStartEv]
        · simp only [runInjectCallback, wrappedCallbackEvents, countEv_append,
            countEv_isEndEv_startEvents, countEv_isEndEv_onResponseEvents]
          simp [countEv, List.filter, isEndEv]
    · constructor
      · simp only [runInjectCallback, wrappedCallbackEvents, countEv_append,
          countEv_isStartEv_startEvents, countEv_isStartEv_onErrorEvents]
        simp [countEv, List.filter, isStartEv]
      · simp only [runInjectCallback, wrappedCallbackEvents, countEv_append,
          countEv_isEndEv_startEvents, countEv_isEndEv_onErrorEvents]
        simp [countEv, List.filter, isEndEv]
  · cases s with
    | fulfilled r =>
      constructor
      · simp only [runInjectPromise, countEv_append,
          countEv_isStartEv_startEvents, countEv_isStartEv_onResponseEvents]
      · simp only [runInjectPromise, countEv_append,
          countEv_isEndEv_startEvents, countEv_isEndEv_onResponseEvents]
    | rejected e =>
      constructor
      · simp only [runInjectPromise, countEv_append,
          countEv_isStartEv_startEvents, countEv_isStartEv_onErrorEvents]
      · simp only [runInjectPromise, countEv_append,
          countEv_isEndEv_startEvents, countEv_isEndEv_onErrorEvents]

/-- C1 witness: the amended theorem instantiated at a concrete callback
completion carrying a truthy error, and a concrete promise settlement. -/
theorem span_finalized_exactly_once_inst :
    (countEv isStartEv (runInjectCallback noHooks (OptionsArg.objArg optsEmpty) (some err0) none).trace = 1
      ∧ countEv isEndEv (runInjectCallback noHooks (OptionsArg.objArg optsEmpty) (some err0) none).trace = 1)
    ∧ (countEv isStartEv (runInjectPromise noHooks (OptionsArg.objArg optsEmpty) (.thenable (.fulfilled resp200))).trace = 1
      ∧ countEv isEndEv (runInjectPromise noHooks (OptionsArg.objArg optsEmpty) (.thenable (.fulfilled resp200))).trace = 1) := by
  have h := span_finalized_exactly_once noHooks (OptionsArg.objArg optsEmpty)
    (some err0) none (.fulfilled resp200)
  exact ⟨h.1 (Or.inl (by decide)), h.2⟩

/-- C2 (confirmed): in the promise branch, a fulfilled thenable is
finalized via the response path (status attribute / classified status
set, span ended once, no exception recorded) and the call resolves with
the very same response; a rejected thenable is finalized via the error
path (exception recorded, error status carrying the error's message,
span ended once) and the call rejects with the very same error; a
non-thenable delegate result is returned unchanged with no finalization
(no end, no status, no exception). -/
theorem wrapPromise_settlement_behavior :
    ∀ (cfg : InjectConfig) (options : OptionsArg) (r : JsResponse) (e : JsError) (v : Int),
      ((runInjectPromise cfg options (.thenable (.fulfilled r))).outcome = .resolved r
        ∧ countEv isEndEv (runInjectPromise cfg options (.thenable (.fulfilled r))).trace = 1
        ∧ Ev.setStatus (if 400 ≤ jsOrNat r.statusCode 200 then .ERROR else .OK) none
            ∈ (runInjectPromise cfg options (.thenable (.fulfilled r))).trace
        ∧ countEv isRecordExcEv (runInjectPromise cfg options (.thenable (.fulfilled r))).trace = 0)
      ∧ ((runInjectPromise cfg options (.thenable (.rejected e))).outcome = .rejected e
        ∧ Ev.recordException e ∈ (runInjectPromise cfg options (.thenable (.rejected e))).trace
        ∧ Ev.setStatus .ERROR (some e.message) ∈ (runInjectPromise cfg options (.thenable (.rejected e))).trace
        ∧ countEv isEndEv (runInjectPromise cfg options (.thenable (.rejected e))).trace = 1)
      ∧ ((runInjectPromise cfg options (.nonThenable v)).outcome = .raw v
        ∧ countEv isEndEv (runInjectPromise cfg options (.nonThenable v)).trace = 0
        ∧ countEv isSetStatusEv (runInjectPromise cfg options (.nonThenable v)).trace = 0
        ∧ countEv isRecordExcEv (runInjectPromise cfg options (.nonThenable v)).trace = 0) := by
  intro cfg options r e v
  refine ⟨⟨rfl, ?_, ?_, ?_⟩, ⟨rfl, ?_, ?_, ?_⟩, ⟨rfl, ?_, ?_, ?_⟩⟩
  · simp only [runInjectPromise, countEv_append,
      countEv_isEndEv_startEvents, countEv_isEndEv_onResponseEvents]
  · simp [runInjectPromise, onResponseEvents, List.mem_append]
  · simp only [runInjectPromise, countEv_append,
      countEv_isRecordExcEv_startEvents, countEv_isRecordExcEv_onResponseEvents]
  · simp [runInjectPromise, onErrorEvents, List.mem_append]
  · simp [runInjectPromise, onErrorEvents, List.mem_append]
  · simp only [runInjectPromise, countEv_append,
      countEv_isEndEv_startEvents, countEv_isEndEv_onErrorEvents]
  · simp only [runInjectPromise, countEv_isEndEv_startEvents]
  · simp only [runInjectPromise, countEv_isSetStatusEv_startEvents]
  · simp only [runInjectPromise, countEv_isRecordExcEv_startEvents]

theorem countEv_isErrorTypeEv_onResponseEvents_lt (cfg : InjectConfig) (r : JsResponse)
    (h4 : jsOrNat r.statusCode 200 < 400) :
    countEv isErrorTypeEv (onResponseEvents cfg r) = 0 := by
  unfold onResponseEvents
  rcases responseHookEvents_cases cfg r with h | h <;>
    simp [h, Nat.not_le.mpr h4, countEv, List.filter_append, List.filter, isErrorTypeEv]

/-- C3 counterexample: the claim reads the status code and "defaults to
200 when it is absent"; a response carrying the (present) status code 0
must therefore yield a response-status-code attribute of 0. The source
computes `response.statusCode || 200`, and 0 is falsy in JS, so the code
sets the attribute to 200 instead. -/
theorem onResponse_zero_status_defaults :
    Ev.setAttribute .httpResponseStatusCode (.num 200) ∈ onResponseEvents noHooks ⟨some 0, []⟩
    ∧ countEv (fun ev => ev == Ev.setAttribute .httpResponseStatusCode (.num 0))
        (onResponseEvents noHooks ⟨some 0, []⟩) = 0 := by
  decide

/-- C3 (amended): response finalization reads the response's status
code, defaulting to 200 when it is absent or zero (JS-falsy), sets the
response-status-code attribute to the resulting value, and: if that
value is >= 400 it additionally sets the error-type attribute to its
decimal string and sets span status to error; if it is below 400 it sets
span status to ok and sets no error-type attribute. -/
theorem onResponse_status_classification :
    ∀ (cfg : InjectConfig) (r : JsResponse),
      (r.statusCode = none → jsOrNat r.statusCode 200 = 200)
      ∧ (r.statusCode = some 0 → jsOrNat r.statusCode 200 = 200)
      ∧ (∀ n, r.statusCode = some n → n ≠ 0 → jsOrNat r.statusCode 200 = n)
      ∧ Ev.setAttribute .httpResponseStatusCode (.num (jsOrNat r.statusCode 200))
          ∈ onResponseEvents cfg r
      ∧ (400 ≤ jsOrNat r.statusCode 200 →
          Ev.setAttribute .errorType (.str (natToJsStr (jsOrNat r.statusCode 200)))
              ∈ onResponseEvents cfg r
          ∧ Ev.setStatus .ERROR none ∈ onResponseEvents cfg r)
      ∧ (jsOrNat r.statusCode 200 < 400 →
          Ev.setStatus .OK none ∈ onResponseEvents cfg r
          ∧ countEv isErrorTypeEv (onResponseEvents cfg r) = 0) := by
  intro cfg r
  refine ⟨?_, ?_, ?_, ?_, ?_, ?_⟩
  · intro h; simp [jsOrNat, h]
  · intro h; simp [jsOrNat, h]
  · intro n h hn; simp [jsOrNat, h, hn]
  · simp [onResponseEvents, List.mem_append]
  · intro h4
    constructor <;> simp [onResponseEvents, h4, List.mem_append]
  · intro h4
    refine ⟨?_, countEv_isErrorTypeEv_onResponseEvents_lt cfg r h4⟩
    simp [onResponseEvents, Nat.not_le.mpr h4, List.mem_append]

/-- C3 witness: the amended theorem instantiated at the spec's examples,
a 404 response and a 200 response. -/
theorem onResponse_status_classification_inst :
    Ev.setAttribute .httpResponseStatusCode (.num 404) ∈ onResponseEvents noHooks resp404
    ∧ Ev.setAttribute .errorType (.str (natToJsStr 404)) ∈ onResponseEvents noHooks resp404
    ∧ Ev.setStatus .ERROR none ∈ onResponseEvents noHooks resp404
    ∧ Ev.setStatus .OK none ∈ onResponseEvents noHooks resp200
    ∧ countEv isErrorTypeEv (onResponseEvents noHooks resp200) = 0 := by
  obtain ⟨-, -, -, ha4, hge, -⟩ := onResponse_status_classification noHooks resp404
  obtain ⟨-, -, -, -, -, hlt⟩ := onResponse_status_classification noHooks resp200
  obtain ⟨he, hs⟩ := hge (by decide)
  obtain ⟨ho, hn⟩ := hlt (by decide)
  exact ⟨ha4, he, hs, ho, hn⟩

/-- C4 (confirmed): error finalization records the exception on the
span, sets the error-type attribute to the error's declared name
(falling back to its runtime constructor name when the declared name is
unavailable — absent or empty, hence JS-falsy — and to the generic label
`Error` when neither is available), sets span status to error with the
error's message as the status message, and ends the span as the last
step. -/
theorem onError_finalization :
    ∀ (e : JsError),
      (onErrorEvents e).getLast? = some Ev.endSpan
      ∧ countEv isEndEv (onErrorEvents e) = 1
      ∧ Ev.recordException e ∈ onErrorEvents e
      ∧ Ev.setStatus .ERROR (some e.message) ∈ onErrorEvents e
      ∧ (truthyS e.name = true →
          Ev.setAttribute .errorType (.str (e.name.getD [])) ∈ onErrorEvents e)
      ∧ (truthyS e.name = false → truthyS e.ctorName = true →
          Ev.setAttribute .errorType (.str (e.ctorName.getD [])) ∈ onErrorEvents e)
      ∧ (truthyS e.name = false → truthyS e.ctorName = false →
          Ev.setAttribute .errorType (.str ("Error".toList)) ∈ onErrorEvents e) := by
  intro e
  refine ⟨rfl, rfl, ?_, ?_, ?_, ?_, ?_⟩
  · simp [onErrorEvents]
  · simp [onErrorEvents]
  · intro h; simp [onErrorEvents, errorTypeOf, jsOrSD, h]
  · intro h h'; simp [onErrorEvents, errorTypeOf, jsOrSD, h, h']
  · intro h h'; simp [onErrorEvents, errorTypeOf, jsOrSD, h, h']

/-- C4 witness: the theorem instantiated at a named error (`Error`), an
error exposing only its constructor name, and an error with neither. -/
theorem onError_finalization_inst :
    (onErrorEvents err0).getLast? = some Ev.endSpan
    ∧ Ev.setStatus .ERROR (some ("boom".toList)) ∈ onErrorEvents err0
    ∧ Ev.setAttribute .errorType (.str (err0.name.getD [])) ∈ onErrorEvents err0
    ∧ Ev.setAttribute .errorType (.str (errNoName.ctorName.getD [])) ∈ onErrorEvents errNoName
    ∧ Ev.setAttribute .errorType (.str ("Error".toList)) ∈ onErrorEvents errBare := by
  obtain ⟨h1, -, -, h4, h5, -, -⟩ := onError_finalization err0
  obtain ⟨-, -, -, -, -, h6, -⟩ := onError_finalization errNoName
  obtain ⟨-, -, -, -, -, -, h7⟩ := onError_finalization errBare
  exact ⟨h1, h4, h5 (by decide), h6 (by decide) (by decide), h7 (by decide) (by decide)⟩

/-- C5 (confirmed): hooks are called inside try/catch whose handler only
logs, so for every call — whatever the configured requestHook and
responseHook do, including throwing — the caller-visible outcome and the
entire span-operation trace (everything except diagnostic log entries)
are identical to the same call under the no-hook configuration; in
particular a throwing hook neither aborts the call, nor changes the span
status set by finalization, nor propagates to the caller. -/
theorem hook_failure_isolation :
    ∀ (cfg : InjectConfig) (options : OptionsArg) (error : Option JsError)
      (response : Option JsResponse) (dres : DelegateResult),
      ((runInjectCallback cfg options error response).outcome
          = (runInjectCallback noHooks options error response).outcome
        ∧ spanEvents (runInjectCallback cfg options error response).trace
          = spanEvents (runInjectCallback noHooks options error response).trace)
      ∧ ((runInjectPromise cfg options dres).outcome
          = (runInjectPromise noHooks options dres).outcome
        ∧ spanEvents (runInjectPromise cfg options dres).trace
          = spanEvents (runInjectPromise noHooks options dres).trace) := by
  intro cfg options error response dres
  refine ⟨⟨rfl, ?_⟩, ?_⟩
  · rcases error with _ | e
    · rcases response with _ | r
      · simp only [runInjectCallback, wrappedCallbackEvents, spanEvents_append,
          spanEvents_startEvents]
      · simp only [runInjectCallback, wrappedCallbackEvents, spanEvents_append,
          spanEvents_startEvents]
        rw [spanEvents_onResponseEvents]
    · simp only [runInjectCallback, wrappedCallbackEvents, spanEvents_append,
        spanEvents_startEvents]
  · cases dres with
    | thenable s =>
      cases s with
      | fulfilled r =>
        refine ⟨rfl, ?_⟩
        simp only [runInjectPromise, spanEvents_append, spanEvents_startEvents]
        rw [spanEvents_onResponseEvents]
      | rejected e =>
        refine ⟨rfl, ?_⟩
        simp only [runInjectPromise, spanEvents_append, spanEvents_startEvents]
    | nonThenable v =>
      refine ⟨rfl, ?_⟩
      simp only [runInjectPromise, spanEvents_startEvents]

theorem takeWhile_eq_self_of_not_any (sep : Char) (l : List Char)
    (h : l.any (fun x => x == sep) = false) :
    l.takeWhile (fun c => !(c == sep)) = l := by
  induction l with
  | nil => rfl
  | cons c cs ih =>
    simp only [List.any_cons, Bool.or_eq_false_iff] at h
    simp [List.takeWhile_cons, h.1, ih h.2]

/-- C6 counterexample: two host values refute the claim as stated.
With the host header present but empty (no colon), the claim promises a
server-address attribute, but the source's truthiness guard
(`if (opts.headers?.host || opts.headers?.Host)`) skips the whole block
and no server-address attribute is set. With host `a::1`, the part
after the first colon (`:1`) is present, so the claim sets a server-port
attribute, but the source destructures `host.split(':')` — the second
element is the empty segment between the two colons, which is falsy — so
no server-port attribute is set. -/
theorem host_header_attrs_cx :
    (lookupHeader [(("host".toList : JsStr), ([] : JsStr))] ("host".toList)).isSome = true
    ∧ attrLookup (buildAttributes c6OptsA) .serverAddress = none
    ∧ attrLookup (buildAttributes c6OptsB) .serverAddress = some (.str ("a".toList))
    ∧ attrLookup (buildAttributes c6OptsB) .serverPort = none := by
  decide

/-- C6 (amended): for every call whose headers contain a host-style
header (key `host` or `Host`) with a truthy (nonempty) value, the value
is split on colons: the part before the first colon becomes the
server-address attribute; the segment between the first and the second
colon, when nonempty, goes through integer parsing (JS `parseInt`,
yielding `NaN` when it has no leading digits) and becomes the
server-port attribute; a host value with no colon yields a
server-address attribute holding the whole value and no server-port
attribute. -/
theorem host_header_attrs :
    ∀ (opts : Opts) (h : JsStr), hostHeaderOf opts = some h →
      attrLookup (buildAttributes opts) .serverAddress
          = some (.str (h.takeWhile (fun c => !(c == ':'))))
      ∧ attrLookup (buildAttributes opts) .serverPort
          = (if (secondSeg ':' h).isEmpty then none
             else some (parseIntAttr (secondSeg ':' h)))
      ∧ (h.any (fun x => x == ':') = false →
          attrLookup (buildAttributes opts) .serverAddress = some (.str h)
          ∧ attrLookup (buildAttributes opts) .serverPort = none) := by
  intro opts h hh
  have hhost : hostAttrs opts =
      (AttrKey.serverAddress, AttrVal.str (first2 (splitList ':' h)).1)
        :: condAttr (truthyS (first2 (splitList ':' h)).2) .serverPort
             (parseIntAttr ((first2 (splitList ':' h)).2.getD [])) := by
    simp [hostAttrs, hh]
  have haddr : attrLookup (buildAttributes opts) .serverAddress
      = some (.str (h.takeWhile (fun c => !(c == ':')))) := by
    show attrLookup (baseAttrs opts ++ hostAttrs opts) .serverAddress = _
    rw [attrLookup_append, attrLookup_baseAttrs_serverAddress]
    rw [hhost, attrLookup_cons_self, first2_splitList_fst]
  have hport : attrLookup (buildAttributes opts) .serverPort
      = (if (secondSeg ':' h).isEmpty then none
         else some (parseIntAttr (secondSeg ':' h))) := by
    show attrLookup (baseAttrs opts ++ hostAttrs opts) .serverPort = _
    rw [attrLookup_append, attrLookup_baseAttrs_serverPort]
    rw [hhost, attrLookup_cons_ne _ _ _ _ (by simp), attrLookup_condAttr_self]
    rw [first2_splitList_snd]
    cases hany : h.any (fun x => x == ':') with
    | true =>
      simp only [if_pos rfl, Option.getD_some, truthyS]
      cases hemp : (secondSeg ':' h).isEmpty <;> simp [hemp]
    | false =>
      simp [truthyS, secondSeg_of_not_any ':' h hany]
  refine ⟨haddr, hport, ?_⟩
  intro hno
  constructor
  · rw [haddr, takeWhile_eq_self_of_not_any ':' h hno]
  · rw [hport, secondSeg_of_not_any ':' h hno]
    rfl

/-- C6 witness: the amended theorem instantiated at the spec's examples,
host `example.com:8080` (address + integer port 8080) and host
`example.com` (address only, no port). -/
theorem host_header_attrs_inst :
    attrLookup (buildAttributes optsHost) .serverAddress = some (.str ("example.com".toList))
    ∧ attrLookup (buildAttributes optsHost) .serverPort = some (.num 8080)
    ∧ attrLookup (buildAttributes optsHostNoPort) .serverAddress = some (.str ("example.com".toList))
    ∧ attrLookup (buildAttributes optsHostNoPort) .serverPort = none := by
  obtain ⟨ha, hp, -⟩ := host_header_attrs optsHost ("example.com:8080".toList) (by decide)
  obtain ⟨-, -, hnc⟩ := host_header_attrs optsHostNoPort ("example.com".toList) (by decide)
  obtain ⟨ha2, hp2⟩ := hnc (by decide)
  exact ⟨ha.trans (by decide), hp.trans (by decide), ha2, hp2⟩

theorem attrLookup_hostAttrs_ne (opts : Opts) (k : AttrKey)
    (h1 : AttrKey.serverAddress ≠ k) (h2 : AttrKey.serverPort ≠ k) :
    attrLookup (hostAttrs opts) k = none := by
  unfold hostAttrs
  cases hh : hostHeaderOf opts with
  | none => simp [hh, attrLookup]
  | some host =>
    simp [hh, attrLookup_cons_ne _ _ _ _ h1, attrLookup_condAttr_ne _ _ _ _ h2]

theorem attrLookup_urlQuery (opts : Opts) :
    attrLookup (buildAttributes opts) .urlQuery =
      (if truthyS (first2 (splitList '?' (urlOf opts))).2
       then some (.str ((first2 (splitList '?' (urlOf opts))).2.getD []))
       else none) := by
  show attrLookup (baseAttrs opts ++ hostAttrs opts) .urlQuery = _
  rw [attrLookup_append,
    attrLookup_hostAttrs_ne opts .urlQuery (by simp) (by simp)]
  simp [baseAttrs, attrLookup_append, attrLookup, attrLookup_condAttr_ne,
    attrLookup_condAttr_self]
  cases htr : truthyS (first2 (splitList '?' (urlOf opts))).2 <;> simp [htr]

/-- C7 (confirmed, reading "the literal url string as supplied" as the
request descriptor's url — the supplied url after the source's
`opts.url || '/'` defaulting, not re-derived from the path-only
attribute): the url-path attribute is the url up to the first `?`, the
url-full attribute is the whole url string including its query string,
the span name is the upper-cased method (default GET) followed by a
space and that same url string, and the url-query attribute is only set
when the url carries a `?`. The witness instantiates the spec's example
`/test?foo=bar`. -/
theorem url_attrs_and_span_name :
    ∀ (opts : Opts),
      attrLookup (buildAttributes opts) .urlFull = some (.str (urlOf opts))
      ∧ attrLookup (buildAttributes opts) .urlPath
          = some (.str ((urlOf opts).takeWhile (fun c => !(c == '?'))))
      ∧ spanNameOf opts = methodOf opts ++ ' ' :: urlOf opts
      ∧ (opts.method = none → methodOf opts = "GET".toList)
      ∧ (∀ v, attrLookup (buildAttributes opts) .urlQuery = some v →
          (urlOf opts).any (fun x => x == '?') = true) := by
  intro opts
  refine ⟨?_, ?_, rfl, ?_, ?_⟩
  · show attrLookup (baseAttrs opts ++ hostAttrs opts) .urlFull = _
    rw [attrLookup_append,
      attrLookup_hostAttrs_ne opts .urlFull (by simp) (by simp)]
    simp [baseAttrs, attrLookup_append, attrLookup]
  · show attrLookup (baseAttrs opts ++ hostAttrs opts) .urlPath = _
    rw [attrLookup_append,
      attrLookup_hostAttrs_ne opts .urlPath (by simp) (by simp)]
    simp [baseAttrs, attrLookup_append, attrLookup, first2_splitList_fst]
  · intro h
    simp only [methodOf, h]
    decide
  · intro v hv
    cases hany : (urlOf opts).any (fun x => x == '?') with
    | true => rfl
    | false =>
      exfalso
      rw [attrLookup_urlQuery, first2_splitList_snd, hany] at hv
      simp [truthyS] at hv

/-- C7 witness: the theorem instantiated at `{ url: '/test?foo=bar' }`
with no method supplied: path `/test`, query `foo=bar`, full
`/test?foo=bar`, span name `GET /test?foo=bar`. -/
theorem url_attrs_and_span_name_inst :
    attrLookup (buildAttributes optsTest) .urlFull = some (.str ("/test?foo=bar".toList))
    ∧ attrLookup (buildAttributes optsTest) .urlPath = some (.str ("/test".toList))
    ∧ attrLookup (buildAttributes optsTest) .urlQuery = some (.str ("foo=bar".toList))
    ∧ spanNameOf optsTest = "GET /test?foo=bar".toList
    ∧ methodOf optsTest = "GET".toList := by
  obtain ⟨hf, hp, hn, hm, -⟩ := url_attrs_and_span_name optsTest
  have hmg : methodOf optsTest = "GET".toList := hm (by rfl)
  refine ⟨hf.trans (by decide), hp.trans (by decide), by decide, ?_, hmg⟩
  rw [hn, hmg]
  decide

/-- C8 (confirmed): for a function-shaped module, unpatching the value
returned by patching recovers the original (the original is stowed under
the private `kOriginal` marker and returned), and unpatching any value
that carries no hidden original under that marker returns the input
unchanged without failing. -/
theorem patch_unpatch_roundtrip :
    (∀ (ks : List JsStr) (o : Option ModuleVal),
        _unpatch (_patch (ModuleVal.fn ks o)) = ModuleVal.fn ks o)
    ∧ (∀ (v : ModuleVal), hiddenOriginal v = none → _unpatch v = v) := by
  constructor
  · intro ks o; rfl
  · intro v hv
    cases v with
    | fn ks o =>
      cases o with
      | none => rfl
      | some w => simp [hiddenOriginal] at hv
    | esm d => rfl
    | other => rfl

/-- C8 witness: the round trip at a concrete function module, and
unpatching a concrete never-wrapped value. -/
theorem patch_unpatch_roundtrip_inst :
    _unpatch (_patch (ModuleVal.fn [] none)) = ModuleVal.fn [] none
    ∧ _unpatch ModuleVal.other = ModuleVal.other :=
  ⟨patch_unpatch_roundtrip.1 [] none, patch_unpatch_roundtrip.2 ModuleVal.other rfl⟩

/-- C9 (confirmed): normalization shallow-copies an object options
argument — `{ ...options }` yields a descriptor field-for-field equal to
the caller's object — and the call leaves the caller's options object
unchanged: the source only ever reads it, so the embedding threads it
through the whole call untouched in `callerOptions`. The derived
descriptor is a `const` local the source never writes after
construction; in this pure embedding every later step consumes it
read-only. -/
theorem options_not_mutated :
    ∀ (o : Opts) (cfg : InjectConfig) (error : Option JsError)
      (response : Option JsResponse) (dres : DelegateResult),
      normalizeOptions (.objArg o) = o
      ∧ (runInjectCallback cfg (.objArg o) error response).callerOptions = .objArg o
      ∧ (runInjectPromise cfg (.objArg o) dres).callerOptions = .objArg o := by
  intro o cfg error response dres
  refine ⟨rfl, rfl, ?_⟩
  cases dres with
  | thenable s => cases s <;> rfl
  | nonThenable v => rfl

/-- C10 (confirmed): in the callback branch, when the delegate invokes
the wrapped callback with a truthy error or a truthy response, the span
is fully finalized before the caller's original callback runs — the last
event is the callback invocation, and the events before it contain
exactly one `span.end()` and exactly one `setStatus` — and the caller's
callback receives the very same `(error, response)` pair. -/
theorem wrappedCallback_finalizes_before_callback :
    ∀ (cfg : InjectConfig) (error : Option JsError) (response : Option JsResponse),
      error.isSome = true ∨ response.isSome = true →
      (wrappedCallbackEvents cfg error response).getLast?
          = some (Ev.callbackCall error response)
      ∧ countEv isEndEv (wrappedCallbackEvents cfg error response).dropLast = 1
      ∧ countEv isSetStatusEv (wrappedCallbackEvents cfg error response).dropLast = 1 := by
  intro cfg error response h
  rcases error with _ | e
  · rcases response with _ | r
    · simp at h
    · unfold wrappedCallbackEvents
      refine ⟨?_, ?_, ?_⟩
      · simp
      · rw [List.dropLast_concat]
        exact countEv_isEndEv_onResponseEvents cfg r
      · rw [List.dropLast_concat]
        exact countEv_isSetStatusEv_onResponseEvents cfg r
  · unfold wrappedCallbackEvents
    refine ⟨?_, ?_, ?_⟩
    · simp
    · rw [List.dropLast_concat]
      exact countEv_isEndEv_onErrorEvents e
    · rw [List.dropLast_concat]
      exact countEv_isSetStatusEv_onErrorEvents e

/-- C10 witness: the theorem instantiated at a concrete truthy error. -/
theorem wrappedCallback_finalizes_before_callback_inst :
    (wrappedCallbackEvents noHooks (some err0) none).getLast?
        = some (Ev.callbackCall (some err0) none)
    ∧ countEv isEndEv (wrappedCallbackEvents noHooks (some err0) none).dropLast = 1
    ∧ countEv isSetStatusEv (wrappedCallbackEvents noHooks (some err0) none).dropLast = 1 :=
  wrappedCallback_finalizes_before_callback noHooks (some err0) none (Or.inl rfl)
